import Mathlib

/-!
Shallow embedding of `wbplot/utils/images.py` and proofs about it.

Modelling conventions:
- Python floats are modelled as rationals (`ℚ`); all scalar vectors are `List ℚ`.
- A Python exception is an `Except PyErr` error value; the normal return is `.ok`.
- matplotlib colormaps are external library objects; each resolved colormap is
  modelled as an abstract function `ℚ → RGBA` passed in as a parameter
  (`greys` for `cm.get_cmap('Greys')`, `cmapF` for the colormap resolved from
  the `cmap` argument by `plots.check_cmap`).
- `nib.load` of the fixed template files is external I/O; the loaded contents
  (data payload, embedded XML label table) are parameters of the embedded
  functions.
-/

/-- Python exception values raised by the module: `ValueError`, `RuntimeError`
and NumPy/list `IndexError`, each carrying its message. -/
inductive PyErr where
  | valueError (msg : String)
  | runtimeError (msg : String)
  | indexError (msg : String)
deriving DecidableEq

/-- True exactly when an `Except` computation returned normally. -/
def exOk {ε α : Type} : Except ε α → Bool
  | .ok _ => true
  | .error _ => false

/-- Normalized hemisphere tag: the non-`None` results of `check_hemisphere`. -/
inductive Hemisphere where
  | left
  | right
deriving DecidableEq

/-- Python `str()` of the `hemisphere` argument (`None` or a string), as used
by `"{} if not a valid hemisphere".format(hemisphere)` in the source. -/
def pyStr : Option String → String
  | none => "None"
  | some s => s

/-- The `options` list of `check_hemisphere` (images.py line 86). -/
def hemisphereOptions : List (Option String) :=
  [some "left", some "l", some "L", some "right", some "r", some "R",
   none, some "lr", some "LR"]

/-- Embeds `check_hemisphere` (images.py lines 73-94).  Note that line 93 of
the source tests membership in `['None', 'lr', 'LR']` — the string `'None'`,
not the value `None` — so the input `None` falls through every branch and the
Python function returns `None` implicitly; behaviourally both paths yield the
normalized no-hemisphere result, modelled here as `.ok none`. -/
def check_hemisphere (hemisphere : Option String) : Except PyErr (Option Hemisphere) :=
  if hemisphere ∉ hemisphereOptions then
    .error (.valueError (pyStr hemisphere ++ " if not a valid hemisphere"))
  else if hemisphere ∈ [some "left", some "l", some "L"] then .ok (some .left)
  else if hemisphere ∈ [some "right", some "r", some "R"] then .ok (some .right)
  else if hemisphere ∈ [some "None", some "lr", some "LR"] then .ok none
  else .ok none

/-- NumPy broadcast of a one-dimensional array into the 180-element slice
`pscalars_lr[:180]` (resp. `[180:]`).  NumPy slice assignment succeeds exactly
when the source shape `(n,)` broadcasts to `(180,)`, i.e. when `n = 180`
(copied elementwise) or `n = 1` (the single value is repeated); any other
length raises a broadcast `ValueError`. -/
def broadcastTo180 (p : List ℚ) : Except PyErr (List ℚ) :=
  if p.length = 180 then .ok p
  else if p.length = 1 then .ok (List.replicate 180 (p.getD 0 0))
  else .error (.valueError "could not broadcast input array")

/-- Embeds `map_unilateral_to_bilateral` (images.py lines 47-70):
`pscalars_lr = np.zeros(360)` followed by slice assignment of `pscalars` into
the hemisphere's half. -/
def map_unilateral_to_bilateral (pscalars : List ℚ) (hemisphere : Option String) :
    Except PyErr (List ℚ) :=
  match check_hemisphere hemisphere with
  | .error e => .error e
  | .ok none => .ok pscalars
  | .ok (some .right) =>
    match broadcastTo180 pscalars with
    | .ok seg => .ok (List.replicate 180 0 ++ seg)
    | .error e => .error e
  | .ok (some .left) =>
    match broadcastTo180 pscalars with
    | .ok seg => .ok (seg ++ List.replicate 180 0)
    | .error e => .error e

/-- The shape-relevant attributes of the Python object handed to the
`check_pscalars_*` validators: whether `type(x) is ndarray`, its `ndim`,
and its `size`. -/
structure NpArrayMeta where
  isNdarray : Bool
  ndim : Nat
  size : Nat
deriving DecidableEq

/-- Embeds `check_pscalars_unilateral` (images.py lines 263-281); the Python
function returns `None` (here `.ok ()`) when no check fails. -/
def check_pscalars_unilateral (pscalars : NpArrayMeta) : Except PyErr Unit :=
  if pscalars.isNdarray = false then
    .error (.runtimeError "pscalars must be a NumPy array")
  else if pscalars.ndim ≠ 1 then
    .error (.runtimeError "pscalars must be one-dimensional")
  else if pscalars.size ≠ 180 then
    .error (.runtimeError "unilateral pscalars must be length 180")
  else .ok ()

/-- Embeds `check_dscalars` (images.py lines 305-323). -/
def check_dscalars (dscalars : NpArrayMeta) : Except PyErr Unit :=
  if dscalars.isNdarray = false then
    .error (.runtimeError "dscalars must be a NumPy array")
  else if dscalars.ndim ≠ 1 then
    .error (.runtimeError "dscalars must be one-dimensional")
  else if dscalars.size ≠ 91282 then
    .error (.runtimeError "bilateral dscalars must be length 91282")
  else .ok ()

/-- Helper: `getD` on `List.replicate`, in range. -/
theorem replicate_getD {α : Type} (x d : α) :
    ∀ (n i : Nat), i < n → (List.replicate n x).getD i d = x := by
  intro n
  induction n with
  | zero => intro i h; exact absurd h (Nat.not_lt_zero i)
  | succ m ih =>
    intro i h
    cases i with
    | zero => rfl
    | succ j => exact ih j (Nat.lt_of_succ_lt_succ h)

/-- Claim C3: `check_hemisphere` maps `'left'`, `'l'`, `'L'` to `'left'`;
`'right'`, `'r'`, `'R'` to `'right'`; `None`, `'lr'`, `'LR'` to no hemisphere;
and raises a `ValueError` on every other input. -/
theorem check_hemisphere_normalizes :
    check_hemisphere (some "left") = .ok (some .left) ∧
    check_hemisphere (some "l") = .ok (some .left) ∧
    check_hemisphere (some "L") = .ok (some .left) ∧
    check_hemisphere (some "right") = .ok (some .right) ∧
    check_hemisphere (some "r") = .ok (some .right) ∧
    check_hemisphere (some "R") = .ok (some .right) ∧
    check_hemisphere none = .ok none ∧
    check_hemisphere (some "lr") = .ok none ∧
    check_hemisphere (some "LR") = .ok none ∧
    ∀ h : Option String, h ∉ hemisphereOptions →
      check_hemisphere h = .error (.valueError (pyStr h ++ " if not a valid hemisphere")) := by
  refine ⟨rfl, rfl, rfl, rfl, rfl, rfl, rfl, rfl, rfl, ?_⟩
  intro h hmem
  unfold check_hemisphere
  rw [if_pos hmem]

/-- Witness for C3: the unrecognized tag `'foo'` raises a `ValueError`. -/
theorem check_hemisphere_normalizes_witness :
    check_hemisphere (some "foo") =
      .error (.valueError ("foo" ++ " if not a valid hemisphere")) :=
  check_hemisphere_normalizes.2.2.2.2.2.2.2.2.2 (some "foo") (by decide)

/-- Claim C5: `check_pscalars_unilateral` returns normally exactly on
one-dimensional NumPy arrays of size 180, and raises an error on every other
input. -/
theorem check_pscalars_unilateral_ok_iff :
    ∀ p : NpArrayMeta,
      exOk (check_pscalars_unilateral p) =
        (p.isNdarray && p.ndim == 1 && p.size == 180) := by
  intro ⟨nd, dim, sz⟩
  unfold check_pscalars_unilateral exOk
  cases nd with
  | false => simp
  | true =>
    by_cases hdim : dim = 1
    · by_cases hsz : sz = 180
      · subst hdim; subst hsz; simp
      · subst hdim; simp [hsz]
    · simp [hdim]

/-- Claim C2: padding a length-180 vector with hemisphere `'left'` yields the
vector followed by 180 zeros; `'right'` yields 180 zeros followed by the
vector; no hemisphere returns the input unchanged — stated both structurally
and index by index. -/
theorem map_unilateral_to_bilateral_spec :
    ∀ v : List ℚ, v.length = 180 →
      map_unilateral_to_bilateral v (some "left") = .ok (v ++ List.replicate 180 0) ∧
      map_unilateral_to_bilateral v (some "right") = .ok (List.replicate 180 0 ++ v) ∧
      map_unilateral_to_bilateral v none = .ok v ∧
      ∀ i : Nat, i < 180 →
        (v ++ List.replicate 180 (0:ℚ)).getD i 0 = v.getD i 0 ∧
        (v ++ List.replicate 180 (0:ℚ)).getD (180 + i) 0 = 0 ∧
        (List.replicate 180 (0:ℚ) ++ v).getD i 0 = 0 ∧
        (List.replicate 180 (0:ℚ) ++ v).getD (180 + i) 0 = v.getD i 0 := by
  intro v hv
  have hbro : broadcastTo180 v = .ok v := by
    unfold broadcastTo180; rw [if_pos hv]
  refine ⟨?_, ?_, rfl, ?_⟩
  · unfold map_unilateral_to_bilateral
    have hch : check_hemisphere (some "left") = .ok (some .left) := rfl
    rw [hch, hbro]
  · unfold map_unilateral_to_bilateral
    have hch : check_hemisphere (some "right") = .ok (some .right) := rfl
    rw [hch, hbro]
  · intro i hi
    have hiv : i < v.length := by rw [hv]; exact hi
    have hrep : i < (List.replicate 180 (0:ℚ)).length := by
      rw [List.length_replicate]; exact hi
    refine ⟨List.getD_append v _ 0 i hiv, ?_, ?_, ?_⟩
    · rw [List.getD_append_right v _ 0 (180 + i) (by rw [hv]; exact Nat.le_add_right _ _)]
      rw [hv, Nat.add_sub_cancel_left]
      exact replicate_getD (0:ℚ) 0 180 i hi
    · rw [List.getD_append _ v 0 i hrep]
      exact replicate_getD (0:ℚ) 0 180 i hi
    · rw [List.getD_append_right _ v 0 (180 + i)
        (by rw [List.length_replicate]; exact Nat.le_add_right _ _)]
      rw [List.length_replicate, Nat.add_sub_cancel_left]

/-- Witness for C2: the all-ones length-180 vector is padded as claimed. -/
theorem map_unilateral_to_bilateral_spec_witness :
    map_unilateral_to_bilateral (List.replicate 180 (1:ℚ)) (some "left") =
      .ok (List.replicate 180 (1:ℚ) ++ List.replicate 180 0) ∧
    (List.replicate 180 (1:ℚ) ++ List.replicate 180 (0:ℚ)).getD (180 + 0) 0 = 0 := by
  have h := map_unilateral_to_bilateral_spec (List.replicate 180 (1:ℚ))
    (List.length_replicate 180 1)
  exact ⟨h.1, (h.2.2.2 0 (by decide)).2.1⟩

/-- An RGBA color, the result of a matplotlib colormap lookup
(`to_rgba` row or a `mappable(d)` call). -/
structure RGBA where
  r : ℚ
  g : ℚ
  b : ℚ
  a : ℚ
deriving DecidableEq

/-- Modelled from the spec: `plots.check_vrange` (the plotting module is not
under src/) is a validation pass-through consumed "only via two validation
calls"; a valid explicit `(min, max)` pair and the `None` default pass
through unchanged. -/
def check_vrange (vrange : Option (ℚ × ℚ)) : Option (ℚ × ℚ) := vrange

/-- `np.min` of a nonempty vector (a left fold of `min`; the empty case never
arises in the embedded call sites and is given an arbitrary value). -/
def npMin : List ℚ → ℚ
  | [] => 0
  | x :: xs => xs.foldl min x

/-- `np.max` of a nonempty vector. -/
def npMax : List ℚ → ℚ
  | [] => 0
  | x :: xs => xs.foldl max x

/-- The `(vmin, vmax)` pair `set_cmap` stores in `self.vrange` (images.py
lines 216-217): the data's own min and max when `vrange` is `None`, the given
pair otherwise. -/
def usedVrange (data : List ℚ) : Option (ℚ × ℚ) → ℚ × ℚ
  | none => (npMin data, npMax data)
  | some v => v

/-- `matplotlib.colors.Normalize(vmin, vmax)` applied to a scalar: the linear
map sending `vmin` to 0 and `vmax` to 1. -/
def normalizeQ (vmin vmax x : ℚ) : ℚ := (x - vmin) / (vmax - vmin)

/-- The color array produced by images.py lines 215-222, before the
masked-zero override: colormap lookup of the normalized data when `mappable`
is `None`, otherwise `[mappable(d) for d in data]`. -/
def generalColors (cmapF : ℚ → RGBA) (data : List ℚ) (vrange : Option (ℚ × ℚ))
    (mappable : Option (ℚ → RGBA)) : List RGBA :=
  match mappable with
  | none =>
    let vr := usedVrange data vrange
    data.map (fun x => cmapF (normalizeQ vr.1 vr.2 x))
  | some m => data.map m

/-- The masked-zero override of images.py lines 224-227:
`colors[data == 0.0, :] = greys(0.2 * ones(...))` replaces the color at every
position whose datum is exactly zero by the Greys colormap at 0.2. -/
def overrideZeros (greys : ℚ → RGBA) (data : List ℚ) (colors : List RGBA) : List RGBA :=
  List.zipWith (fun d c => if d = 0 then greys (1/5) else c) data colors

/-- The complete color computation of `Cifti.set_cmap` (images.py lines
214-227): general mapping followed by the masked-zero override. -/
def setCmapColors (greys cmapF : ℚ → RGBA) (data : List ℚ) (vrange : Option (ℚ × ℚ))
    (mappable : Option (ℚ → RGBA)) : List RGBA :=
  overrideZeros greys data (generalColors cmapF data vrange mappable)

/-- One `<Label .../>` entry of the embedded XML color table
(`self.extensions[0][1][0][1][ii]`): its non-color attributes and text are
collapsed into `key`, and the four color attributes are XML attribute
strings. -/
structure LabelEntry where
  key : String
  red : String
  green : String
  blue : String
  alpha : String
deriving DecidableEq

/-- Python `str()` of a color component, as written into the XML attribute. -/
def ratStr (q : ℚ) : String := toString q

/-- `entry.set('Red', str(c.r))` etc. (images.py lines 230-237): overwrite the
four color attributes of one entry, leaving its other attributes intact. -/
def setEntryColor (e : LabelEntry) (c : RGBA) : LabelEntry :=
  { e with red := ratStr c.r, green := ratStr c.g, blue := ratStr c.b,
           alpha := ratStr c.a }

/-- The loop of images.py lines 229-237: `for ii in range(1, len(table))`,
setting entry `ii` from `colors[ii - 1]`.  Entry 0 is never visited.  When the
table has more than `len(colors) + 1` entries the first out-of-range access
raises an `IndexError` (in Python the entries before it are already mutated;
the exception propagates out of `set_cmap` either way). -/
def patchColorTable (table : List LabelEntry) (colors : List RGBA) :
    Except PyErr (List LabelEntry) :=
  match table with
  | [] => .ok []
  | e0 :: rest =>
    if rest.length ≤ colors.length then
      .ok (e0 :: List.zipWith setEntryColor rest colors)
    else .error (.indexError "list index out of range")

/-- The in-memory state of a `Cifti` object (images.py lines 170-260):
`data`, the parsed XML `extensions` tree (modelled by its color table), the
serialized extension content currently stored in the header, the recorded
`vrange`, and the `ischanged` flag.  `affine` and the rest of the header do
not participate in any claim and are omitted. -/
structure Cifti where
  data : List ℚ
  extensions : List LabelEntry
  headerExt : List LabelEntry
  vrange : Option (ℚ × ℚ)
  ischanged : Bool
deriving DecidableEq

/-- `Cifti.__init__` (images.py lines 172-187): the extensions tree is parsed
from the header's extension content (`eT.fromstring` is modelled as the
identity on the modelled table), `vrange` is `None` and `ischanged` `False`. -/
def Cifti.init (data : List ℚ) (headerExt : List LabelEntry) : Cifti :=
  { data := data, extensions := headerExt, headerExt := headerExt,
    vrange := none, ischanged := false }

/-- `Cifti.set_cmap` (images.py lines 189-238): compute the colors, patch the
color table, record the vrange (only on the `mappable is None` branch, line
216) and set `ischanged`.  A raised `IndexError` is surfaced as `.error`. -/
def Cifti.set_cmap (st : Cifti) (greys cmapF : ℚ → RGBA) (data : List ℚ)
    (vrange : Option (ℚ × ℚ)) (mappable : Option (ℚ → RGBA)) : Except PyErr Cifti :=
  let vrange := check_vrange vrange
  let newVrange := match mappable with
    | none => some (usedVrange data vrange)
    | some _ => st.vrange
  let colors := setCmapColors greys cmapF data vrange mappable
  match patchColorTable st.extensions colors with
  | .ok newTable =>
    .ok { st with extensions := newTable, vrange := newVrange, ischanged := true }
  | .error e => .error e

/-- `Cifti.write_extensions` (images.py lines 240-241): re-serialize the
in-memory tree into the header's extension content (`eT.tostring` modelled as
the identity on the modelled table). -/
def Cifti.write_extensions (st : Cifti) : Cifti :=
  { st with headerExt := st.extensions }

/-- The image file produced by `nib.save` in `Cifti.save`: output path, data
payload, and the header's extension content. -/
structure SavedCifti where
  path : String
  data : List ℚ
  extContent : List LabelEntry
deriving DecidableEq

/-- `Cifti.save` (images.py lines 243-260): re-serialize the extensions into
the header when `ischanged`, then write the image. -/
def Cifti.save (st : Cifti) (fout : String) : SavedCifti :=
  let st := if st.ischanged then st.write_extensions else st
  { path := fout, data := st.data, extContent := st.headerExt }

/-- Claim C1: every position whose datum is exactly zero receives the fixed
grey `greys(0.2)`, whatever the vrange, the colormap and the optional custom
mappable; the override is the last stage of the color computation. -/
theorem set_cmap_zero_is_grey :
    ∀ (greys cmapF : ℚ → RGBA) (data : List ℚ) (vrange : Option (ℚ × ℚ))
      (mappable : Option (ℚ → RGBA)) (i : Nat),
      i < data.length → data.getD i 0 = 0 →
      (setCmapColors greys cmapF data vrange mappable).getD i ⟨0, 0, 0, 0⟩ =
        greys (1/5) := by
  intro greys cmapF data vrange mappable i hi hzero
  have hglen : (generalColors cmapF data vrange mappable).length = data.length := by
    unfold generalColors
    cases mappable <;> simp
  have hlen : (setCmapColors greys cmapF data vrange mappable).length = data.length := by
    unfold setCmapColors overrideZeros
    rw [List.length_zipWith, hglen, Nat.min_self]
  have hi2 : i < (setCmapColors greys cmapF data vrange mappable).length := by
    rw [hlen]; exact hi
  rw [List.getD_eq_getElem _ _ hi2]
  rw [List.getD_eq_getElem _ _ hi] at hzero
  unfold setCmapColors overrideZeros
  simp only [List.getElem_zipWith]
  rw [if_pos hzero]

/-- Witness for C1: in the vector `[0, 7]` with an explicit vrange `(3, 9)`
and a red constant colormap, position 0 still gets the grey `greys(0.2)`. -/
theorem set_cmap_zero_is_grey_witness :
    ([(0:ℚ), 7]).getD 0 0 = 0 ∧
    (setCmapColors (fun q => ⟨q, q, q, 1⟩) (fun _ => ⟨1, 0, 0, 1⟩) [0, 7]
        (some (3, 9)) none).getD 0 ⟨0, 0, 0, 0⟩ = ⟨1/5, 1/5, 1/5, 1⟩ :=
  ⟨by decide,
   set_cmap_zero_is_grey (fun q => ⟨q, q, q, 1⟩) (fun _ => ⟨1, 0, 0, 1⟩) [0, 7]
     (some (3, 9)) none 0 (by decide) (by decide)⟩

/-- Claim C6: without a mappable, the normalization range is the data's own
`(min, max)` when no vrange is given and the given pair otherwise, and each
color is the colormap looked up at the linearly normalized datum. -/
theorem set_cmap_vrange_and_lookup :
    ∀ (cmapF : ℚ → RGBA) (data : List ℚ) (a b : ℚ) (vr : Option (ℚ × ℚ)) (i : Nat),
      usedVrange data none = (npMin data, npMax data) ∧
      usedVrange data (some (a, b)) = (a, b) ∧
      (i < data.length →
        (generalColors cmapF data vr none).getD i ⟨0, 0, 0, 0⟩ =
          cmapF (normalizeQ (usedVrange data vr).1 (usedVrange data vr).2
            (data.getD i 0))) := by
  intro cmapF data a b vr i
  refine ⟨rfl, rfl, ?_⟩
  intro hi
  have hlen : (generalColors cmapF data vr none).length = data.length := by
    unfold generalColors; simp
  have hi2 : i < (generalColors cmapF data vr none).length := by
    rw [hlen]; exact hi
  rw [List.getD_eq_getElem _ _ hi2, List.getD_eq_getElem _ _ hi]
  unfold generalColors
  simp [List.getElem_map]

/-- Witness for C6: for the vector `[1, 3]` with no explicit vrange, position
1 is looked up at the normalization of 3 over the data's own range. -/
theorem set_cmap_vrange_and_lookup_witness :
    (1:Nat) < ([(1:ℚ), 3]).length ∧
    (generalColors (fun q => ⟨q, 0, 0, 1⟩) [(1:ℚ), 3] none none).getD 1 ⟨0, 0, 0, 0⟩ =
      (fun q : ℚ => RGBA.mk q 0 0 1)
        (normalizeQ (usedVrange [(1:ℚ), 3] none).1 (usedVrange [(1:ℚ), 3] none).2
          (([(1:ℚ), 3]).getD 1 0)) :=
  ⟨by decide,
   (set_cmap_vrange_and_lookup (fun q => ⟨q, 0, 0, 1⟩) [(1:ℚ), 3] 0 1 none 1).2.2
     (by decide)⟩

/-- Claim C7: when the colors suffice, patching leaves entry 0 of the color
table untouched and overwrites, for each `i ≥ 1`, entry `i`'s four color
attributes with the string forms of RGBA row `i - 1`. -/
theorem set_cmap_patch_table :
    ∀ (e0 : LabelEntry) (rest : List LabelEntry) (colors : List RGBA),
      rest.length ≤ colors.length →
      patchColorTable (e0 :: rest) colors =
        .ok (e0 :: List.zipWith setEntryColor rest colors) ∧
      ∀ i : Nat, i < rest.length →
        (e0 :: List.zipWith setEntryColor rest colors).getD (i + 1) e0 =
          setEntryColor (rest.getD i ⟨"", "", "", "", ""⟩)
            (colors.getD i ⟨0, 0, 0, 0⟩) := by
  intro e0 rest colors hle
  constructor
  · simp [patchColorTable, hle]
  · intro i hi
    have hic : i < colors.length := Nat.lt_of_lt_of_le hi hle
    have hiz : i < (List.zipWith setEntryColor rest colors).length := by
      rw [List.length_zipWith]
      exact Nat.lt_min.mpr ⟨hi, hic⟩
    have hcons : (e0 :: List.zipWith setEntryColor rest colors).getD (i + 1) e0 =
        (List.zipWith setEntryColor rest colors).getD i e0 := rfl
    rw [hcons, List.getD_eq_getElem _ _ hiz,
        List.getD_eq_getElem _ _ hi, List.getD_eq_getElem _ _ hic]
    simp [List.getElem_zipWith]

/-- Witness for C7: a two-entry table patched with one color keeps entry 0
and rewrites entry 1 from color row 0. -/
theorem set_cmap_patch_table_witness :
    patchColorTable [⟨"k0", "r0", "g0", "b0", "a0"⟩, ⟨"k1", "r1", "g1", "b1", "a1"⟩]
        [⟨0, 0, 0, 1⟩] =
      .ok (⟨"k0", "r0", "g0", "b0", "a0"⟩ ::
        List.zipWith setEntryColor [⟨"k1", "r1", "g1", "b1", "a1"⟩] [⟨0, 0, 0, 1⟩]) ∧
    (⟨"k0", "r0", "g0", "b0", "a0"⟩ ::
        List.zipWith setEntryColor [⟨"k1", "r1", "g1", "b1", "a1"⟩]
          [⟨0, 0, 0, 1⟩]).getD 1 ⟨"k0", "r0", "g0", "b0", "a0"⟩ =
      setEntryColor (([⟨"k1", "r1", "g1", "b1", "a1"⟩] : List LabelEntry).getD 0
          ⟨"", "", "", "", ""⟩)
        (([⟨0, 0, 0, 1⟩] : List RGBA).getD 0 ⟨0, 0, 0, 0⟩) :=
  ⟨(set_cmap_patch_table ⟨"k0", "r0", "g0", "b0", "a0"⟩
      [⟨"k1", "r1", "g1", "b1", "a1"⟩] [⟨0, 0, 0, 1⟩] (by decide)).1,
   (set_cmap_patch_table ⟨"k0", "r0", "g0", "b0", "a0"⟩
      [⟨"k1", "r1", "g1", "b1", "a1"⟩] [⟨0, 0, 0, 1⟩] (by decide)).2 0 (by decide)⟩

/-- Claim C8: a fresh `Cifti` has `ischanged = False`; every (normally
returning) `set_cmap` call sets it `True`; `save` re-serializes the
extensions tree into the header exactly when `ischanged` holds, and writes
the image either way. -/
theorem cifti_dirty_flag_protocol :
    ∀ (d : List ℚ) (ext : List LabelEntry) (st : Cifti) (greys cmapF : ℚ → RGBA)
      (data : List ℚ) (vr : Option (ℚ × ℚ)) (mp : Option (ℚ → RGBA)) (fout : String),
      (Cifti.init d ext).ischanged = false ∧
      (match st.set_cmap greys cmapF data vr mp with
        | .ok st2 => st2.ischanged = true
        | .error _ => True) ∧
      st.save fout =
        ⟨fout, st.data, if st.ischanged then st.extensions else st.headerExt⟩ := by
  intro d ext st greys cmapF data vr mp fout
  refine ⟨rfl, ?_, ?_⟩
  · unfold Cifti.set_cmap
    cases hp : patchColorTable st.extensions
        (setCmapColors greys cmapF data (check_vrange vr) mp) with
    | ok t => simp [hp]
    | error e => simp [hp]
  · unfold Cifti.save Cifti.write_extensions
    cases hic : st.ischanged <;> simp

/-- Modelled from the spec: the label table embedded in the fixed dlabel
template file (`constants.DLABEL_FILE`, external data not under src/) —
"ordered sequence of RGBA entries, one per parcel", 360 bilateral parcels,
with "entry 0 ... skipped — reserved/background", hence 361 entries. -/
def dlabelTemplateExt : List LabelEntry :=
  List.replicate 361 ⟨"", "0", "0", "0", "0"⟩

/-- Embeds `write_parcellated_image` (images.py lines 15-44):
`check_hemisphere`, hemisphere padding, `Cifti(constants.DLABEL_FILE)`,
`set_cmap` (with no mappable), `save`.  The template file's payload and label
table are parameters, as is the resolved colormap pair. -/
def write_parcellated_image (tmplData : List ℚ) (tmplExt : List LabelEntry)
    (greys cmapF : ℚ → RGBA) (data : List ℚ) (fout : String)
    (hemisphere : Option String) (vrange : Option (ℚ × ℚ)) :
    Except PyErr SavedCifti :=
  match check_hemisphere hemisphere with
  | .error e => .error e
  | .ok _ =>
    match map_unilateral_to_bilateral data hemisphere with
    | .error e => .error e
    | .ok pscalars_lr =>
      match (Cifti.init tmplData tmplExt).set_cmap greys cmapF pscalars_lr
          vrange none with
      | .error e => .error e
      | .ok c => .ok (c.save fout)

set_option maxRecDepth 20000 in
/-- Claim C4 failing input: `write_parcellated_image` with hemisphere
`'left'` and the length-1 vector `[5]` returns normally — NumPy broadcasts
the single value across the 180-element hemisphere slice instead of raising,
so the unilateral length-180 validation claimed by the spec does not happen
(`check_pscalars_unilateral` exists but is never called here). -/
theorem write_parcellated_image_accepts_length_one :
    exOk (write_parcellated_image [] dlabelTemplateExt (fun q => ⟨q, q, q, 1⟩)
      (fun q => ⟨q, 0, 0, 1⟩) [5] "out.dlabel.nii" (some "left") none) = true := by
  rfl

/-- The NumPy buffer heap: `write_dense_image` mutates no caller-visible
buffer, which is stated against an explicit heap of float arrays; an ndarray
is an index into it.  (All arrays in play are one-dimensional.) -/
structure NpHeap where
  bufs : List (List ℚ)
deriving DecidableEq

/-- `np.copy(a)`: allocate a fresh buffer holding the same values and return
the heap with the new buffer's index. -/
def npCopy (h : NpHeap) (src : Nat) : NpHeap × Nat :=
  (⟨h.bufs ++ [h.bufs.getD src []]⟩, h.bufs.length)

/-- The characters of `".dscalar.nii"`. -/
def dsSuffix : List Char := ".dscalar.nii".toList

/-- Python `fout[-12:]`: the last 12 characters, or the whole string when it
is shorter (negative indices clamp to 0). -/
def pyLast12 (s : List Char) : List Char := s.drop (s.length - 12)

/-- The output filename computation of images.py lines 121-122:
`if fout[-12:] != ".dscalar.nii": fout += ".dscalar.nii"`. -/
def denseOutName (fout : List Char) : List Char :=
  if pyLast12 fout = dsSuffix then fout else fout ++ dsSuffix

/-- The file written by `nib.save(new_img, join(savedir, fout))`: directory,
filename, and the data payload. -/
structure SavedDense where
  dir : String
  fname : List Char
  data : List ℚ
deriving DecidableEq

/-- Embeds `write_dense_image` (images.py lines 97-138): validate the
dscalars, fix the output name, `np.copy` the input, load the template
(its payload is the parameter `templateData`), reshape the copy to the
template's shape (an error unless the total sizes agree; the flat payload is
unchanged), and save.  The heap holds one-dimensional float ndarrays, so of
the `check_dscalars` tests only the size check can fail. -/
def write_dense_image (h : NpHeap) (dscalarsId : Nat) (templateData : List ℚ)
    (savedir : String) (fout : List Char) : Except PyErr (NpHeap × SavedDense) :=
  if (h.bufs.getD dscalarsId []).length ≠ 91282 then
    .error (.runtimeError "bilateral dscalars must be length 91282")
  else
    let fout2 := denseOutName fout
    let hp := npCopy h dscalarsId
    let newData := hp.1.bufs.getD hp.2 []
    if newData.length = templateData.length then
      .ok (hp.1, { dir := savedir, fname := fout2, data := newData })
    else .error (.valueError "cannot reshape array")

/-- Helper: reading back index `i` after appending a copy of the value at
`i` leaves the read unchanged. -/
theorem getD_append_copy {α : Type} (l : List α) (i : Nat) (d : α) :
    (l ++ [l.getD i d]).getD i d = l.getD i d := by
  rcases Nat.lt_or_ge i l.length with hlt | hge
  · exact List.getD_append l _ d i hlt
  · rw [List.getD_append_right l _ d i hge]
    cases hsub : i - l.length with
    | zero => rfl
    | succ n =>
      rw [List.getD_eq_default _ d (by simp), List.getD_eq_default l d hge]

/-- Claim C9: the written filename ends in `.dscalar.nii`; the name is kept
exactly when its last 12 characters equal `.dscalar.nii`, and gets the suffix
appended exactly otherwise; the file goes under `savedir` with that name. -/
theorem write_dense_image_filename :
    ∀ (h : NpHeap) (i : Nat) (t : List ℚ) (sd : String) (fout : List Char),
      dsSuffix <:+ denseOutName fout ∧
      (denseOutName fout = fout ↔ pyLast12 fout = dsSuffix) ∧
      (denseOutName fout = fout ++ dsSuffix ↔ pyLast12 fout ≠ dsSuffix) ∧
      (match write_dense_image h i t sd fout with
        | .ok (_, s) => s.dir = sd ∧ s.fname = denseOutName fout
        | .error _ => True) := by
  intro h i t sd fout
  have hsufflen : dsSuffix.length = 12 := rfl
  have happne : fout ++ dsSuffix ≠ fout := by
    intro heq
    have hlen := congrArg List.length heq
    rw [List.length_append, hsufflen] at hlen
    omega
  refine ⟨?_, ?_, ?_, ?_⟩
  · unfold denseOutName
    by_cases hc : pyLast12 fout = dsSuffix
    · rw [if_pos hc]
      refine ⟨fout.take (fout.length - 12), ?_⟩
      rw [← hc]
      unfold pyLast12
      exact List.take_append_drop (fout.length - 12) fout
    · rw [if_neg hc]
      exact ⟨fout, rfl⟩
  · constructor
    · intro heq
      by_contra hc
      unfold denseOutName at heq
      rw [if_neg hc] at heq
      exact happne heq
    · intro hc
      unfold denseOutName
      rw [if_pos hc]
  · constructor
    · intro heq hc
      unfold denseOutName at heq
      rw [if_pos hc] at heq
      exact happne heq.symm
    · intro hc
      unfold denseOutName
      rw [if_neg hc]
  · cases hr : write_dense_image h i t sd fout with
    | error e => trivial
    | ok p =>
      obtain ⟨h2, s⟩ := p
      simp only [write_dense_image] at hr
      by_cases hc1 : (h.bufs.getD i []).length ≠ 91282
      · rw [if_pos hc1] at hr
        exact absurd hr (by simp)
      · rw [if_neg hc1] at hr
        by_cases hc2 : ((npCopy h i).1.bufs.getD (npCopy h i).2 []).length = t.length
        · rw [if_pos hc2] at hr
          have hpair := (Except.ok.injEq _ _).mp hr
          have hs := congrArg Prod.snd hpair
          simp only at hs
          rw [← hs]
          exact ⟨rfl, rfl⟩
        · rw [if_neg hc2] at hr
          exact absurd hr (by simp)

/-- Claim C10: `write_dense_image` never mutates the caller's dscalars
buffer — after a normal return the heap still holds the original values at
the input's index (the data is copied into a fresh buffer before being
reshaped and written). -/
theorem write_dense_image_preserves_input :
    ∀ (h : NpHeap) (i : Nat) (t : List ℚ) (sd : String) (fout : List Char),
      match write_dense_image h i t sd fout with
      | .ok (h2, _) => h2.bufs.getD i [] = h.bufs.getD i []
      | .error _ => True := by
  intro h i t sd fout
  cases hr : write_dense_image h i t sd fout with
  | error e => trivial
  | ok p =>
    obtain ⟨h2, s⟩ := p
    simp only [write_dense_image] at hr
    by_cases hc1 : (h.bufs.getD i []).length ≠ 91282
    · rw [if_pos hc1] at hr
      exact absurd hr (by simp)
    · rw [if_neg hc1] at hr
      by_cases hc2 : ((npCopy h i).1.bufs.getD (npCopy h i).2 []).length = t.length
      · rw [if_pos hc2] at hr
        have hpair := (Except.ok.injEq _ _).mp hr
        have hh := congrArg Prod.fst hpair
        simp only at hh
        rw [← hh]
        show (⟨h.bufs ++ [h.bufs.getD i []]⟩ : NpHeap).bufs.getD i [] = h.bufs.getD i []
        exact getD_append_copy h.bufs i []
      · rw [if_neg hc2] at hr
        exact absurd hr (by simp)
